import Mathlib

/-!
Shallow embedding of the multi-producer single-consumer channel from
`src/src/lib.rs` (crate `rust_channels`).

The Rust code keeps a `Shared<T>` behind an `Arc`, holding a
`Mutex<Inner<T>>` (with fields `queue : VecDeque<T>` and `senders : usize`)
and a `Condvar available`.  The `Receiver<T>` additionally owns a private
`buffer : VecDeque<T>`.  All mutations of `queue` and `senders` happen
under the single mutex, so a channel execution is a sequence of atomic
state transformations; we embed the lock-protected state together with the
receiver's private buffer as one record and each public operation as a
pure state transformer.  `VecDeque` is embedded as `List` (push_back is
append at the tail, pop_front takes the head); `usize` as `Nat`.
-/

/-- The channel state visible to the operations: the mutex-protected
fields `queue` and `senders` of `Inner<T>`, plus the receiver's private
`buffer`.  The `Condvar` has no state of its own; `notify_one` calls are
modelled as `Bool` results of the operations that may issue them. -/
structure ChanState (T : Type) where
  queue : List T
  senders : Nat
  buffer : List T
  deriving Repr, DecidableEq

/-- Model of `channel()` : allocates `Inner { queue: VecDeque::new(), senders: 1 }`
and a receiver whose `buffer` is `VecDeque::new()`. -/
def channel (T : Type) : ChanState T :=
  { queue := [], senders := 1, buffer := [] }

/-- Model of `Sender::send` : locks, `queue.push_back(value)`, unlocks, then
`available.notify_one()`.  The `Bool` component records that the
notification was issued.  The function is total: the Rust method has no
failure path and never blocks (beyond the lock hold). -/
def send {T : Type} (s : ChanState T) (value : T) : ChanState T × Bool :=
  ({ s with queue := s.queue ++ [value] }, true)

/-- Model of `Sender::clone` : locks and does `senders += 1` (the new handle shares
the same `Arc<Shared<T>>`, so the shared state is this same record). -/
def senderClone {T : Type} (s : ChanState T) : ChanState T :=
  { s with senders := s.senders + 1 }

/-- Model of `Sender::drop` : locks, `senders -= 1`, computes
`was_last = senders == 0`, unlocks, and calls `notify_one` iff `was_last`.
The `Bool` component records whether the notification was issued. -/
def senderDrop {T : Type} (s : ChanState T) : ChanState T × Bool :=
  let s' := { s with senders := s.senders - 1 }
  (s', s'.senders == 0)

/-- Outcome of one `Receiver::recv` call.  `item t` is `Some(t)`,
`exhausted` is `None`; `blocked` marks the branch where the Rust code
suspends on `available.wait` — a pure function cannot wait, so the model
returns the state unchanged and the caller re-evaluates after a wake. -/
inductive RecvResult (T : Type) where
  | item (t : T)
  | exhausted
  | blocked
  deriving Repr, DecidableEq

/-- Model of `Receiver::recv` : first `self.buffer.pop_front()` (early return with
no lock taken); otherwise lock and inspect `queue.pop_front()`: on
`Some(t)`, if the remaining queue is non-empty, `mem::swap(&mut queue,
&mut self.buffer)`, then return `Some(t)`; on `None` with `senders == 0`
return `None`; otherwise wait on the condvar. -/
def recv {T : Type} (s : ChanState T) : RecvResult T × ChanState T :=
  match s.buffer with
  | t :: rest => (.item t, { s with buffer := rest })
  | [] =>
    match s.queue with
    | t :: rest =>
      if rest.isEmpty then
        (.item t, { s with queue := rest })
      else
        (.item t, { s with queue := s.buffer, buffer := rest })
    | [] =>
      if s.senders == 0 then (.exhausted, s)
      else (.blocked, s)

/-- Serial sequence of sends (each one a `Sender::send` on a handle of
this channel; all handles alias the same shared state). -/
def sendAll {T : Type} (s : ChanState T) (vs : List T) : ChanState T :=
  vs.foldl (fun st v => (send st v).1) s

/-- Model of `n` successive `recv` calls, collecting their outcomes and threading
the state. -/
def drainN {T : Type} : Nat → ChanState T → List (RecvResult T) × ChanState T
  | 0, s => ([], s)
  | n + 1, s =>
    let r := recv s
    let rest := drainN n r.2
    (r.1 :: rest.1, rest.2)

/-- State after one `recv` call (used to iterate calls). -/
def recvState {T : Type} (s : ChanState T) : ChanState T :=
  (recv s).2

-- Basic sanity checks against the crate's own tests (`ping_pong`,
-- `send_drop`, and the batch-drain scenario).
example : (recv (send (channel Nat) 25).1).1 = RecvResult.item 25 := by decide
example : (recv (senderDrop (channel Nat)).1).1 = RecvResult.exhausted := by decide
example :
    (drainN 4 (senderDrop (sendAll (channel Nat) [1, 2, 3])).1).1 =
      [RecvResult.item 1, RecvResult.item 2, RecvResult.item 3,
        RecvResult.exhausted] := by decide

/-! ### Basic lemmas about single operations -/

/-- A `recv` call never changes the producer count: neither the fast path
nor any branch of the lock-held loop touches `senders`. -/
theorem recv_senders_eq {T : Type} : ∀ s : ChanState T, (recv s).2.senders = s.senders
  | ⟨q, n, b⟩ => by
    cases b with
    | cons t b' => rfl
    | nil =>
      cases q with
      | cons t q' => cases q' <;> rfl
      | nil => cases n <;> rfl

/-- One `recv` step on a logically non-empty channel: the first element of
`buffer ++ queue` is returned as an item and the remaining logical
content is `buffer ++ queue` of the post-state; `senders` is unchanged. -/
theorem recv_cons {T : Type} (s : ChanState T) (v : T) (l : List T)
    (h : s.buffer ++ s.queue = v :: l) :
    (recv s).1 = RecvResult.item v ∧
    (recv s).2.buffer ++ (recv s).2.queue = l ∧
    (recv s).2.senders = s.senders := by
  obtain ⟨q, n, b⟩ := s
  cases b with
  | cons t b' =>
    simp only [List.cons_append, List.cons.injEq] at h
    obtain ⟨rfl, rfl⟩ := h
    exact ⟨rfl, rfl, rfl⟩
  | nil =>
    simp only [List.nil_append] at h
    subst h
    cases l with
    | nil => exact ⟨rfl, rfl, rfl⟩
    | cons x xs => exact ⟨rfl, by simp [recv], rfl⟩

/-- Draining `l.length` items from a channel whose logical content
(`buffer ++ queue`) is `l` yields exactly the items of `l` in order and
leaves both the buffer and the queue empty, with `senders` unchanged. -/
theorem drainN_items {T : Type} :
    ∀ (l : List T) (s : ChanState T), s.buffer ++ s.queue = l →
      (drainN l.length s).1 = l.map RecvResult.item ∧
      (drainN l.length s).2.buffer = [] ∧
      (drainN l.length s).2.queue = [] ∧
      (drainN l.length s).2.senders = s.senders := by
  intro l
  induction l with
  | nil =>
    intro s h
    obtain ⟨h1, h2⟩ := List.append_eq_nil.mp h
    exact ⟨rfl, h1, h2, rfl⟩
  | cons v l ih =>
    intro s h
    obtain ⟨hout, hrest, hsend⟩ := recv_cons s v l h
    obtain ⟨ih1, ih2, ih3, ih4⟩ := ih (recv s).2 hrest
    simp only [List.length_cons, drainN, List.map_cons]
    exact ⟨by rw [hout, ih1], ih2, ih3, by rw [ih4, hsend]⟩

/-- A serial sequence of `send` calls appends the sent values, in order,
to the tail of the shared queue, and touches nothing else. -/
theorem sendAll_eq {T : Type} :
    ∀ (vs : List T) (s : ChanState T),
      sendAll s vs = { s with queue := s.queue ++ vs } := by
  intro vs
  induction vs with
  | nil => intro s; simp [sendAll]
  | cons v vs ih =>
    intro s
    show sendAll (send s v).1 vs = _
    rw [ih (send s v).1]
    simp [send]

/-! ### Reachable channel states

The public operations are only available through live handles: `send`,
`clone` and `drop` require holding a `Sender`, `recv` requires holding the
`Receiver`.  We track the number of live `Sender` handles as a ghost
component `hnd` of the configuration; an operation that needs a `Sender`
carries the precondition `0 < hnd`. -/

/-- One step of a channel execution: `s`/`hnd` are the channel state and
the number of live `Sender` handles before the step, the last two indices
are the state and handle count after it. -/
inductive ChanStep (T : Type) : ChanState T → Nat → ChanState T → Nat → Prop where
  | sendStep (s : ChanState T) (hnd : Nat) (v : T) (hpos : 0 < hnd) :
      ChanStep T s hnd (send s v).1 hnd
  | cloneStep (s : ChanState T) (hnd : Nat) (hpos : 0 < hnd) :
      ChanStep T s hnd (senderClone s) (hnd + 1)
  | dropStep (s : ChanState T) (hnd : Nat) (hpos : 0 < hnd) :
      ChanStep T s hnd (senderDrop s).1 (hnd - 1)
  | recvStep (s : ChanState T) (hnd : Nat) :
      ChanStep T s hnd (recv s).2 hnd

/-- Configurations reachable from `channel()` (which returns the first
`Sender`, so the initial handle count is 1) by public operations. -/
inductive ChanReachable (T : Type) : ChanState T → Nat → Prop where
  | init : ChanReachable T (channel T) 1
  | step {s : ChanState T} {hnd : Nat} {s' : ChanState T} {hnd' : Nat} :
      ChanReachable T s hnd → ChanStep T s hnd s' hnd' → ChanReachable T s' hnd'

/-- In every reachable configuration the `senders` counter equals the
number of live `Sender` handles. -/
theorem reachable_senders_eq_handles {T : Type} (s : ChanState T) (hnd : Nat)
    (hr : ChanReachable T s hnd) : s.senders = hnd := by
  induction hr with
  | init => rfl
  | step hr hst ih =>
    cases hst with
    | sendStep v hpos => exact ih
    | cloneStep hpos => simp [senderClone, ih]
    | dropStep hpos => simp [senderDrop, ih]
    | recvStep => rw [recv_senders_eq]; exact ih

/-- Once the producer count of a reachable configuration is 0, no step can
change it: `send`, `clone` and `drop` need a live `Sender` handle (and the
counter equals the handle count), and `recv` never touches the counter. -/
theorem step_senders_zero {T : Type} (s : ChanState T) (hnd : Nat)
    (s' : ChanState T) (hnd' : Nat) (hr : ChanReachable T s hnd)
    (h0 : s.senders = 0) (hst : ChanStep T s hnd s' hnd') : s'.senders = 0 := by
  have hh : s.senders = hnd := reachable_senders_eq_handles s hnd hr
  cases hst with
  | sendStep v hpos => omega
  | cloneStep hpos => omega
  | dropStep hpos => omega
  | recvStep => rw [recv_senders_eq]; exact h0

/-! ### Concurrent producers as lock-serialized schedules

`N` producer threads each holding a list of pending values to send race on
the single mutex; the mutex serializes the `send` calls into some global
order.  A `schedule` is the list of thread indices in the order in which
they win the lock; at each step the scheduled thread sends its next
pending value (an index with no pending value left, or out of range, is a
step in which that thread does nothing). -/

/-- One scheduling step: thread `i` sends its next pending value. -/
def schedStep {T : Type} (pend : List (List T)) (i : Nat) (s : ChanState T) :
    List (List T) × ChanState T :=
  match pend[i]? with
  | some (v :: rest) => (pend.set i rest, (send s v).1)
  | _ => (pend, s)

/-- Run a whole schedule of lock-serialized `send` calls. -/
def runSched {T : Type} : List Nat → List (List T) → ChanState T →
    List (List T) × ChanState T
  | [], pend, s => (pend, s)
  | i :: is, pend, s =>
    let r := schedStep pend i s
    runSched is r.1 r.2

/-- Combined multiset of all values still pending across the producer
threads. -/
def pendSum {T : Type} (pend : List (List T)) : Multiset T :=
  (pend.map Multiset.ofList).sum

/-- Instance of `schedStep` at a thread index with no pending list. -/
theorem schedStep_none {T : Type} (pend : List (List T)) (i : Nat)
    (s : ChanState T) (h : pend[i]? = none) : schedStep pend i s = (pend, s) := by
  simp only [schedStep, h]

/-- Instance of `schedStep` at a thread whose pending list is empty. -/
theorem schedStep_some_nil {T : Type} (pend : List (List T)) (i : Nat)
    (s : ChanState T) (h : pend[i]? = some []) : schedStep pend i s = (pend, s) := by
  simp only [schedStep, h]

/-- Instance of `schedStep` at a thread with a pending value: that value is
sent and removed from the thread's pending list. -/
theorem schedStep_some_cons {T : Type} (pend : List (List T)) (i : Nat)
    (s : ChanState T) (v : T) (rest : List T) (h : pend[i]? = some (v :: rest)) :
    schedStep pend i s = (pend.set i rest, (send s v).1) := by
  simp only [schedStep, h]

/-- Taking the head `v` off the `i`-th pending list removes exactly one
copy of `v` from the combined multiset of pending values. -/
theorem pendSum_set_head {T : Type} :
    ∀ (pend : List (List T)) (i : Nat) (v : T) (rest : List T),
      pend[i]? = some (v :: rest) →
      pendSum (pend.set i rest) + {v} = pendSum pend := by
  intro pend
  induction pend with
  | nil => intro i v rest h; simp at h
  | cons p ps ih =>
    intro i v rest h
    cases i with
    | zero =>
      simp only [List.getElem?_cons_zero, Option.some.injEq] at h
      subst h
      simp only [pendSum, List.set_cons_zero, List.map_cons, List.sum_cons]
      rw [show Multiset.ofList (v :: rest) = {v} + Multiset.ofList rest from by
        rw [Multiset.singleton_add, Multiset.cons_coe]]
      simp [add_comm, add_assoc, add_left_comm]
    | succ i =>
      simp only [List.getElem?_cons_succ] at h
      have ih' := ih i v rest h
      simp only [pendSum, List.set_cons_succ, List.map_cons, List.sum_cons] at ih' ⊢
      rw [add_assoc, ih']

/-- Invariant of a schedule run: the multiset of enqueued plus pending
values is preserved, and neither the receiver buffer nor the producer
count is touched. -/
theorem runSched_inv {T : Type} :
    ∀ (sched : List Nat) (pend : List (List T)) (s : ChanState T),
      Multiset.ofList (runSched sched pend s).2.queue +
          pendSum (runSched sched pend s).1 =
        Multiset.ofList s.queue + pendSum pend ∧
      (runSched sched pend s).2.buffer = s.buffer ∧
      (runSched sched pend s).2.senders = s.senders := by
  intro sched
  induction sched with
  | nil => intro pend s; exact ⟨rfl, rfl, rfl⟩
  | cons i is ih =>
    intro pend s
    simp only [runSched]
    rcases hget : pend[i]? with _ | l
    · rw [schedStep_none pend i s hget]
      exact ih pend s
    · cases l with
      | nil =>
        rw [schedStep_some_nil pend i s hget]
        exact ih pend s
      | cons v rest =>
        rw [schedStep_some_cons pend i s v rest hget]
        dsimp only
        obtain ⟨ih1, ih2, ih3⟩ := ih (pend.set i rest) (send s v).1
        refine ⟨?_, ih2, ih3⟩
        rw [ih1]
        show Multiset.ofList (s.queue ++ [v]) + pendSum (pend.set i rest) = _
        rw [show Multiset.ofList (s.queue ++ [v]) =
            Multiset.ofList s.queue + {v} from by
          rw [← Multiset.coe_add, Multiset.coe_singleton]]
        rw [add_assoc, add_comm ({v} : Multiset T) (pendSum (pend.set i rest)),
          ← add_assoc, add_assoc, pendSum_set_head pend i v rest hget]

/-- A pending table in which every thread's list is exhausted carries the
empty multiset. -/
theorem pendSum_eq_zero {T : Type} :
    ∀ L : List (List T), (∀ l ∈ L, l = []) → pendSum L = 0 := by
  intro L
  induction L with
  | nil => intro _; rfl
  | cons p ps ih =>
    intro h
    obtain rfl : p = [] := h p (List.mem_cons_self p ps)
    show Multiset.ofList [] + pendSum ps = 0
    rw [ih fun l hl => h l (List.mem_cons_of_mem _ hl)]
    rfl

/-- The combined multiset of a pending table is the multiset of its
flattening. -/
theorem pendSum_flatten {T : Type} :
    ∀ L : List (List T), pendSum L = Multiset.ofList L.flatten := by
  intro L
  induction L with
  | nil => rfl
  | cons p ps ih =>
    show Multiset.ofList p + pendSum ps = Multiset.ofList ((p :: ps).flatten)
    rw [ih]
    exact Multiset.coe_add p ps.flatten

/-! ### The claims -/

/-- C1: FIFO delivery — for every sequence of sends `v1, …, vn` issued
serially (on any `Sender` handles: they all alias the same shared state)
before any `recv`, the next `n` `recv()` calls return
`Some v1, …, Some vn` in exactly that order; the batch drain into the
private buffer (taken on the first of these calls) preserves the queue
order. -/
theorem c1_fifo_delivery {T : Type} (vs : List T) :
    (drainN vs.length (sendAll (channel T) vs)).1 = vs.map RecvResult.item := by
  have h : (sendAll (channel T) vs).buffer ++ (sendAll (channel T) vs).queue = vs := by
    rw [sendAll_eq]
    rfl
  exact (drainN_items vs (sendAll (channel T) vs) h).1

/-- C2 counterexample: a reachable state (send 1; send 2; drop the sender;
one recv, which batch-drains value 2 into the private buffer) has producer
count 0 and an empty shared queue, yet the next `recv()` returns
`Some 2`, not the exhausted sentinel. -/
theorem c2_exhaustion_counterexample :
    (recvState (senderDrop (sendAll (channel Nat) [1, 2])).1).senders = 0 ∧
    (recvState (senderDrop (sendAll (channel Nat) [1, 2])).1).queue = [] ∧
    (recv (recvState (senderDrop (sendAll (channel Nat) [1, 2])).1)).1 =
      RecvResult.item 2 ∧
    (recv (recvState (senderDrop (sendAll (channel Nat) [1, 2])).1)).1 ≠
      RecvResult.exhausted := by
  decide

/-- C2 (amended): in every channel state in which the producer count is 0,
the shared queue is empty, and the receiver's private buffer is also
empty, every subsequent `recv()` call returns the exhausted sentinel
immediately (not the blocked outcome), leaves the state unchanged, and
this holds for all later calls. -/
theorem c2_exhaustion_amended {T : Type} (s : ChanState T) (h0 : s.senders = 0)
    (hq : s.queue = []) (hb : s.buffer = []) (n : Nat) :
    recv (recvState^[n] s) = (RecvResult.exhausted, recvState^[n] s) := by
  obtain ⟨q, m, b⟩ := s
  obtain rfl : m = 0 := h0
  obtain rfl : q = [] := hq
  obtain rfl : b = [] := hb
  rw [Function.iterate_fixed rfl n]
  rfl

/-- Witness for C2 (amended) at the concrete closed state, third call. -/
theorem c2_exhaustion_amended_witness :
    recv (recvState^[3] (⟨[], 0, []⟩ : ChanState Nat)) =
      (RecvResult.exhausted, recvState^[3] (⟨[], 0, []⟩ : ChanState Nat)) :=
  c2_exhaustion_amended ⟨[], 0, []⟩ rfl rfl rfl 3

/-- C3: batch drain — a `recv()` that finds the private buffer empty and
the shared queue non-empty pops and returns the queue's front element; if
the remainder is non-empty the entire remainder is swapped into the
private buffer in that same lock-held step (the queue receiving the old
buffer), otherwise only the pop happens. -/
theorem c3_batch_drain {T : Type} (s : ChanState T) (t : T) (q' : List T)
    (hb : s.buffer = []) (hq : s.queue = t :: q') :
    (recv s).1 = RecvResult.item t ∧
    (q' = [] → (recv s).2 = { s with queue := [] }) ∧
    (q' ≠ [] → (recv s).2.buffer = q' ∧ (recv s).2.queue = s.buffer) := by
  obtain ⟨q, n, b⟩ := s
  obtain rfl : b = [] := hb
  obtain rfl : q = t :: q' := hq
  cases q' with
  | nil => exact ⟨rfl, fun _ => rfl, fun hne => absurd rfl hne⟩
  | cons x xs =>
    exact ⟨rfl, fun h => absurd h (List.cons_ne_nil x xs), fun _ => ⟨rfl, rfl⟩⟩

/-- Witness for C3 at the state `queue = [1,2,3]`, empty buffer. -/
theorem c3_batch_drain_witness :
    (recv (⟨[1, 2, 3], 1, []⟩ : ChanState Nat)).1 = RecvResult.item 1 ∧
    (recv (⟨[1, 2, 3], 1, []⟩ : ChanState Nat)).2.buffer = [2, 3] ∧
    (recv (⟨[1, 2, 3], 1, []⟩ : ChanState Nat)).2.queue =
      (⟨[1, 2, 3], 1, []⟩ : ChanState Nat).buffer :=
  have h := c3_batch_drain ⟨[1, 2, 3], 1, []⟩ 1 [2, 3] rfl rfl
  ⟨h.1, (h.2.2 (by decide)).1, (h.2.2 (by decide)).2⟩

/-- C5: receiver fast path — when the private buffer is non-empty,
`recv()` pops and returns its front element (the early return happens
before the lock is ever taken) and leaves the shared queue and the
producer count unchanged. -/
theorem c5_fast_path {T : Type} (s : ChanState T) (t : T) (b' : List T)
    (h : s.buffer = t :: b') :
    (recv s).1 = RecvResult.item t ∧
    (recv s).2.queue = s.queue ∧
    (recv s).2.senders = s.senders ∧
    (recv s).2.buffer = b' := by
  obtain ⟨q, n, b⟩ := s
  obtain rfl : b = t :: b' := h
  exact ⟨rfl, rfl, rfl, rfl⟩

/-- Witness for C5 at `queue = [9]`, `senders = 0`, `buffer = [7, 8]`. -/
theorem c5_fast_path_witness :
    (recv (⟨[9], 0, [7, 8]⟩ : ChanState Nat)).1 = RecvResult.item 7 ∧
    (recv (⟨[9], 0, [7, 8]⟩ : ChanState Nat)).2.queue =
      (⟨[9], 0, [7, 8]⟩ : ChanState Nat).queue ∧
    (recv (⟨[9], 0, [7, 8]⟩ : ChanState Nat)).2.senders =
      (⟨[9], 0, [7, 8]⟩ : ChanState Nat).senders ∧
    (recv (⟨[9], 0, [7, 8]⟩ : ChanState Nat)).2.buffer = [8] :=
  c5_fast_path ⟨[9], 0, [7, 8]⟩ 7 [8] rfl

/-- C4: producer-count accounting — `channel()` initializes the count to
exactly 1, `Sender::clone` adds exactly 1, `Sender::drop` subtracts
exactly 1; in every configuration reachable by the public operations the
count equals the number of live `Sender` handles (hence, being a `Nat`
mirroring the `usize` field, it is never negative), and once it is 0 no
available operation can change it again: `send`, `clone` and `drop` all
need a live handle, and `recv` never touches the count. -/
theorem c4_producer_count {T : Type} :
    (channel T).senders = 1 ∧
    (∀ s : ChanState T, (senderClone s).senders = s.senders + 1) ∧
    (∀ s : ChanState T, 0 < s.senders → (senderDrop s).1.senders + 1 = s.senders) ∧
    (∀ (s : ChanState T) (hnd : Nat), ChanReachable T s hnd → s.senders = hnd) ∧
    (∀ (s : ChanState T) (hnd : Nat) (s' : ChanState T) (hnd' : Nat),
        ChanReachable T s hnd → s.senders = 0 → ChanStep T s hnd s' hnd' →
        s'.senders = 0) := by
  refine ⟨rfl, fun s => rfl, fun s h => ?_, reachable_senders_eq_handles,
    step_senders_zero⟩
  show s.senders - 1 + 1 = s.senders
  omega

/-- Witness for C4: one drop of the initial sender reaches count 0, and a
subsequent `recv` step keeps it at 0. -/
theorem c4_producer_count_witness :
    (channel Nat).senders = 1 ∧
    (senderClone (channel Nat)).senders = (channel Nat).senders + 1 ∧
    (senderDrop (channel Nat)).1.senders + 1 = (channel Nat).senders ∧
    (senderDrop (channel Nat)).1.senders = 0 ∧
    (recv (senderDrop (channel Nat)).1).2.senders = 0 :=
  have hreach : ChanReachable Nat (senderDrop (channel Nat)).1 0 :=
    ChanReachable.step ChanReachable.init
      (ChanStep.dropStep (channel Nat) 1 (by decide))
  ⟨(@c4_producer_count Nat).1,
   (@c4_producer_count Nat).2.1 (channel Nat),
   (@c4_producer_count Nat).2.2.1 (channel Nat) (by decide),
   (@c4_producer_count Nat).2.2.2.1 (senderDrop (channel Nat)).1 0 hreach,
   (@c4_producer_count Nat).2.2.2.2 (senderDrop (channel Nat)).1 0
     (recv (senderDrop (channel Nat)).1).2 0 hreach rfl
     (ChanStep.recvStep (senderDrop (channel Nat)).1 0)⟩

/-- C6: sender-destruction notification — `Sender::drop` decrements the
count under the lock and wakes a waiter (`notify_one`) iff that decrement
brought the count to 0; a drop that leaves the count positive issues no
notification. -/
theorem c6_drop_notification {T : Type} (s : ChanState T) (h : 0 < s.senders) :
    (senderDrop s).1.senders + 1 = s.senders ∧
    ((senderDrop s).2 = true ↔ (senderDrop s).1.senders = 0) ∧
    (0 < (senderDrop s).1.senders → (senderDrop s).2 = false) := by
  refine ⟨?_, ?_, ?_⟩
  · show s.senders - 1 + 1 = s.senders
    omega
  · exact beq_iff_eq
  · intro hpos
    have hne : s.senders - 1 ≠ 0 := by
      show (senderDrop s).1.senders ≠ 0
      omega
    show (s.senders - 1 == 0) = false
    simp [hne]

/-- Witness for C6 at a two-sender state: dropping one sender leaves the
count positive, so no notification is issued. -/
theorem c6_drop_notification_witness :
    (senderDrop (senderClone (channel Nat))).1.senders + 1 =
      (senderClone (channel Nat)).senders ∧
    ((senderDrop (senderClone (channel Nat))).2 = true ↔
      (senderDrop (senderClone (channel Nat))).1.senders = 0) ∧
    (0 < (senderDrop (senderClone (channel Nat))).1.senders →
      (senderDrop (senderClone (channel Nat))).2 = false) :=
  c6_drop_notification (senderClone (channel Nat)) (by decide)

/-- C7: unconditional send — for every channel state (in particular the
model imposes no condition related to the `Receiver`, which holds no state
the sender reads), `send(value)` appends `value` to the tail of the shared
queue, issues a notification, leaves the producer count and the private
buffer unchanged, and — being a total function with no error component —
has no failure path and never blocks. -/
theorem c7_unconditional_send {T : Type} (s : ChanState T) (v : T) :
    (send s v).1.queue = s.queue ++ [v] ∧
    (send s v).1.senders = s.senders ∧
    (send s v).1.buffer = s.buffer ∧
    (send s v).2 = true :=
  ⟨rfl, rfl, rfl, rfl⟩

/-- C9: buffered items precede exhaustion — whenever the private buffer is
non-empty, `recv()` returns its front element as an item (never the
exhausted sentinel), whatever the producer count and shared queue; and the
exhausted sentinel is only ever returned from a state whose private buffer
is empty. -/
theorem c9_buffer_precedes_exhaustion {T : Type} :
    (∀ (s : ChanState T) (t : T) (b' : List T), s.buffer = t :: b' →
        (recv s).1 = RecvResult.item t ∧ (recv s).1 ≠ RecvResult.exhausted) ∧
    (∀ s : ChanState T, (recv s).1 = RecvResult.exhausted → s.buffer = []) := by
  constructor
  · intro s t b' h
    obtain ⟨q, n, b⟩ := s
    obtain rfl : b = t :: b' := h
    exact ⟨rfl, fun hc => RecvResult.noConfusion hc⟩
  · intro s hex
    obtain ⟨q, n, b⟩ := s
    cases b with
    | nil => rfl
    | cons t b' => exact RecvResult.noConfusion hex

/-- Witness for C9 at a state with producer count 0 and empty shared
queue but a buffered value: `recv` still returns the item. -/
theorem c9_buffer_precedes_exhaustion_witness :
    ((recv (⟨[], 0, [5]⟩ : ChanState Nat)).1 = RecvResult.item 5 ∧
      (recv (⟨[], 0, [5]⟩ : ChanState Nat)).1 ≠ RecvResult.exhausted) ∧
    (⟨[], 0, []⟩ : ChanState Nat).buffer = [] :=
  ⟨c9_buffer_precedes_exhaustion.1 ⟨[], 0, [5]⟩ 5 [] rfl,
   c9_buffer_precedes_exhaustion.2 ⟨[], 0, []⟩ rfl⟩

/-- C10: slow path empties the shared queue — a `recv()` entered with an
empty private buffer and a non-empty shared queue returns the queue's
front element and leaves the shared queue empty: either the popped element
was the only one, or the swap moved the whole remainder into the buffer
and the queue became the former (empty) buffer. -/
theorem c10_slow_path_empties_queue {T : Type} (s : ChanState T) (t : T)
    (q' : List T) (hb : s.buffer = []) (hq : s.queue = t :: q') :
    (recv s).1 = RecvResult.item t ∧
    (recv s).2.queue = [] ∧
    (q' ≠ [] → (recv s).2.queue = s.buffer) := by
  obtain ⟨q, n, b⟩ := s
  obtain rfl : b = [] := hb
  obtain rfl : q = t :: q' := hq
  cases q' with
  | nil => exact ⟨rfl, rfl, fun hne => absurd rfl hne⟩
  | cons x xs => exact ⟨rfl, rfl, fun _ => rfl⟩

/-- Witness for C10 at `queue = [4, 5]`, empty buffer. -/
theorem c10_slow_path_empties_queue_witness :
    (recv (⟨[4, 5], 2, []⟩ : ChanState Nat)).1 = RecvResult.item 4 ∧
    (recv (⟨[4, 5], 2, []⟩ : ChanState Nat)).2.queue = [] ∧
    ([5] ≠ ([] : List Nat) →
      (recv (⟨[4, 5], 2, []⟩ : ChanState Nat)).2.queue =
        (⟨[4, 5], 2, []⟩ : ChanState Nat).buffer) :=
  c10_slow_path_empties_queue ⟨[4, 5], 2, []⟩ 4 [5] rfl rfl

/-- C8: multi-producer safety — for any table of per-thread value lists
and any lock-serialization schedule that delivers every pending value, the
shared queue ends up holding a permutation of all the sent values (each
sent value exactly once, no loss, no duplication, for every interleaving),
its length is the sum of the per-thread counts (`N` threads of `M` values
give `N * M`), and the consumer then observes exactly those queued values,
each as an item, in queue order. -/
theorem c8_multi_producer {T : Type} (producers : List (List T))
    (sched : List Nat)
    (hdone : ∀ l ∈ (runSched sched producers (channel T)).1, l = []) :
    (runSched sched producers (channel T)).2.queue.Perm producers.flatten ∧
    (runSched sched producers (channel T)).2.queue.length =
      (producers.map List.length).sum ∧
    (drainN (runSched sched producers (channel T)).2.queue.length
        (runSched sched producers (channel T)).2).1 =
      (runSched sched producers (channel T)).2.queue.map RecvResult.item := by
  obtain ⟨h1, h2, h3⟩ := runSched_inv sched producers (channel T)
  rw [pendSum_eq_zero _ hdone, pendSum_flatten] at h1
  have hq : Multiset.ofList (runSched sched producers (channel T)).2.queue =
      Multiset.ofList producers.flatten := by
    have hzero : Multiset.ofList ((channel T).queue) = 0 := rfl
    rw [hzero, zero_add, add_zero] at h1
    exact h1
  have hperm : (runSched sched producers (channel T)).2.queue.Perm
      producers.flatten := Multiset.coe_eq_coe.mp hq
  refine ⟨hperm, ?_, ?_⟩
  · rw [hperm.length_eq, List.length_flatten]
  · have hcontent : (runSched sched producers (channel T)).2.buffer ++
        (runSched sched producers (channel T)).2.queue =
        (runSched sched producers (channel T)).2.queue := by
      rw [h2]
      exact List.nil_append _
    exact (drainN_items (runSched sched producers (channel T)).2.queue
      (runSched sched producers (channel T)).2 hcontent).1

/-- Witness for C8: two producer threads, pending `[1, 2]` and `[3]`,
interleaved by the schedule thread 0, thread 1, thread 0. -/
theorem c8_multi_producer_witness :
    (runSched [0, 1, 0] [[1, 2], [3]] (channel Nat)).2.queue.Perm
      ([[1, 2], [3]] : List (List Nat)).flatten ∧
    (runSched [0, 1, 0] [[1, 2], [3]] (channel Nat)).2.queue.length =
      (([[1, 2], [3]] : List (List Nat)).map List.length).sum ∧
    (drainN (runSched [0, 1, 0] [[1, 2], [3]] (channel Nat)).2.queue.length
        (runSched [0, 1, 0] [[1, 2], [3]] (channel Nat)).2).1 =
      (runSched [0, 1, 0] [[1, 2], [3]] (channel Nat)).2.queue.map
        RecvResult.item :=
  c8_multi_producer [[1, 2], [3]] [0, 1, 0] (by decide)
